import Mathlib

/-!
Shallow embedding of the lora2mqtt gateway core (src/lora2mqtt/messages.py and
src/lora2mqtt/lora2mqtt.py): the binary frame codec, the discovery-catalog
reconciliation, the value-semantics pipeline and the outbound request
builders, together with theorems settling the specification claims.

Byte strings are `List ℕ` (each element a byte value).  Python bit masks are
rendered as the equivalent division/modulus arithmetic on ℕ.  Fallible Python
code (list indexing, struct.unpack, dict lookup, unbound locals) is embedded
in `Except PyErr`.
-/

namespace Lora2MQTT

/-- The Python runtime errors the embedded code can raise:
`IndexError` (sequence index out of range), `struct.error` (unpack of a
buffer whose length does not match the format), `KeyError` (missing dict
key) and `UnboundLocalError` (local variable referenced before assignment). -/
inductive PyErr where
  | indexError
  | structError
  | keyError
  | unboundLocalError
  deriving DecidableEq, Repr

/-- Python sequence indexing `xs[i]` for a non-negative index: the element,
or `IndexError` when `i` is out of range. -/
def pyIndex {α : Type} (xs : List α) (i : ℕ) : Except PyErr α :=
  match xs.get? i with
  | some x => .ok x
  | none => .error .indexError

/-- `Cover.state` from messages.py. -/
def Cover.state : List String :=
  ["closed", "open", "opening", "closing"]

/-- `Cover.deviceClassName` from messages.py. -/
def Cover.deviceClassName : List String :=
  ["none", "awning", "blind", "curtain", "damper", "door", "garage", "gate",
   "shade", "shutter", "window"]

/-- `BinarySensor.deviceClassName` from messages.py. -/
def BinarySensor.deviceClassName : List String :=
  ["none", "battery", "battery_charging", "cold", "connectivity", "door",
   "garage_door", "gas", "heat", "light", "lock", "moisture", "motion",
   "moving", "occupancy", "opening", "plug", "power", "presence", "problem",
   "safety", "smoke", "sound", "vibration", "window"]

/-- `Sensor.deviceClassName` from messages.py. -/
def Sensor.deviceClassName : List String :=
  ["none", "apparent_power", "aqi", "atmospheric_pressure", "battery",
   "carbon_dioxide", "carbon_monoxide", "current", "data_rate", "data_size",
   "date", "distance", "duration", "energy", "enum_class", "frequency",
   "gas", "humidity", "illuminance", "irradiance", "moisture", "monetary",
   "nitrogen_dioxide", "nitrogen_monoxide", "nitrous_oxide", "ozone", "pm1",
   "pm10", "pm25", "power_factor", "power", "precipitation",
   "precipitation_intensity", "pressure", "reactive_power",
   "signal_strength", "sound_pressure", "speed", "sulphur_dioxide",
   "temperature", "timestamp", "volatile_organic_compounds", "voltage",
   "volume", "water", "weight", "wind_speed"]

/-- `Component.name` from messages.py. -/
def Component.name : List String :=
  ["binary_sensor", "sensor", "cover"]

/-- `Unit.name` from messages.py. -/
def UnitTable.name : List String :=
  ["", "°C", "°F", "K", "%", "km", "m", "dm", "cm", "mm", "μm", "s", "ms"]

/-- `Size.value` from messages.py. -/
def Size.value : List ℕ :=
  [1, 2, 4, 0]

/-- Bit 4 of a bitfield byte: `(b & 0x10) != 0` in messages.py. -/
def bfSigned (b : ℕ) : Bool :=
  (b / 16) % 2 == 1

/-- Bits 3–2 of a bitfield byte: `(b & 0x0C) >> 2` in messages.py. -/
def bfSizeCode (b : ℕ) : ℕ :=
  (b / 4) % 4

/-- Bits 1–0 of a bitfield byte: `b & 0x03` in messages.py. -/
def bfPrecision (b : ℕ) : ℕ :=
  b % 4

/-- `ConfigItem` from messages.py. -/
structure ConfigItem where
  id : ℕ
  unit : String
  signed : Bool
  size : ℕ
  precision : ℕ
  deriving DecidableEq, Repr

/-- `ConfigItem.from_bytes`: `id = msg[0]`, `unit = Unit.name[msg[1]]`,
`signed = (msg[2] & 0x10) != 0`, `size = Size.value[(msg[2] & 0x0C) >> 2]`,
`precision = msg[2] & 0x03`. -/
def ConfigItem.from_bytes (msg : List ℕ) : Except PyErr ConfigItem := do
  let b0 ← pyIndex msg 0
  let b1 ← pyIndex msg 1
  let unit ← pyIndex UnitTable.name b1
  let b2 ← pyIndex msg 2
  let size ← pyIndex Size.value (bfSizeCode b2)
  pure ⟨b0, unit, bfSigned b2, size, bfPrecision b2⟩

/-- Modelled from the spec: the repository has no byte encoder for config
items (only the decode direction exists in messages.py); this encoder follows
the spec's wire layout for one 3-byte config-item group — byte 0 the id,
byte 1 the index into the unit table, byte 2 the bitfield with bit 4 the
signed flag, bits 3–2 the size code from the table (1, 2, 4, 0) and
bits 1–0 the precision. -/
def ConfigItem.to_bytes (it : ConfigItem) : List ℕ :=
  [it.id,
   UnitTable.name.indexOf it.unit,
   (if it.signed then 16 else 0) + 4 * (Size.value.indexOf it.size) + it.precision]

/-- `DiscoveryMsg` from messages.py.  `device_class` is `Option String`
because the source's if/elif chain leaves it `None` for an unrecognised
component name. -/
structure DiscoveryMsg where
  entity_id : ℕ
  component : String
  device_class : Option String
  unit : String
  signed : Bool
  size : ℕ
  precision : ℕ
  config_items : List ConfigItem
  deriving DecidableEq, Repr

/-- The config-item loop of `DiscoveryMsg.from_bytes`: `num_cfg_items`
iterations, each decoding the 3-byte slice `msg[offset : offset + 3]`. -/
def parseConfigItems (msg : List ℕ) : ℕ → ℕ → Except PyErr (List ConfigItem)
  | 0, _ => .ok []
  | Nat.succ k, offset => do
    let item ← ConfigItem.from_bytes ((msg.drop offset).take 3)
    let rest ← parseConfigItems msg k (offset + 3)
    pure (item :: rest)

/-- The if/elif chain of `DiscoveryMsg.from_bytes` that resolves
`device_class = <vocabulary>[msg[3]]` against the vocabulary selected by
the component name, leaving `None` for an unrecognised component. -/
def deviceClassFor (component : String) (msg : List ℕ) : Except PyErr (Option String) :=
  if component = "binary_sensor" then do
    let i ← pyIndex msg 3
    let dc ← pyIndex BinarySensor.deviceClassName i
    pure (some dc)
  else if component = "sensor" then do
    let i ← pyIndex msg 3
    let dc ← pyIndex Sensor.deviceClassName i
    pure (some dc)
  else if component = "cover" then do
    let i ← pyIndex msg 3
    let dc ← pyIndex Cover.deviceClassName i
    pure (some dc)
  else
    pure none

/-- `DiscoveryMsg.from_bytes` from messages.py.  When `num_cfg_items` is 0
the local `config_items` is never assigned, so the final constructor call
raises `UnboundLocalError`. -/
def DiscoveryMsg.from_bytes (msg : List ℕ) : Except PyErr DiscoveryMsg := do
  let entity_id ← pyIndex msg 1
  let compIdx ← pyIndex msg 2
  let component ← pyIndex Component.name compIdx
  let device_class ← deviceClassFor component msg
  let unitIdx ← pyIndex msg 4
  let unit ← pyIndex UnitTable.name unitIdx
  let b5 ← pyIndex msg 5
  let size ← pyIndex Size.value (bfSizeCode b5)
  let num_cfg_items ← pyIndex msg 6
  if num_cfg_items > 0 then do
    let config_items ← parseConfigItems msg num_cfg_items 7
    pure ⟨entity_id, component, device_class, unit, bfSigned b5, size,
          bfPrecision b5, config_items⟩
  else
    .error .unboundLocalError

/-- `DiscoveryMsg.__eq__` from messages.py: field-for-field comparison with
the `config_items` comparison commented out in the source. -/
def discEq (a b : DiscoveryMsg) : Bool :=
  decide (a.entity_id = b.entity_id ∧ a.component = b.component ∧
          a.device_class = b.device_class ∧ a.unit = b.unit ∧
          a.signed = b.signed ∧ a.size = b.size ∧ a.precision = b.precision)

/-- `ValueItem` from messages.py: `struct.unpack("!BI", msg)` — a 1-byte
entity id followed by a big-endian unsigned 32-bit magnitude; `struct.error`
unless the buffer is exactly 5 bytes. -/
structure ValueItem where
  entity_id : ℕ
  value : ℕ
  deriving DecidableEq, Repr

/-- `ValueItem.__init__`. -/
def ValueItem.ofBytes (s : List ℕ) : Except PyErr ValueItem :=
  match s with
  | [a, b, c, d, e] => .ok ⟨a, ((b * 256 + c) * 256 + d) * 256 + e⟩
  | _ => .error .structError

/-- The item loop of `ValueMsg.__init__`: `num_entities` iterations, each
unpacking the 5-byte slice `msg[offset : offset + 5]`. -/
def valueMsgItems (msg : List ℕ) : ℕ → ℕ → Except PyErr (List ValueItem)
  | 0, _ => .ok []
  | Nat.succ k, offset => do
    let item ← ValueItem.ofBytes ((msg.drop offset).take 5)
    let rest ← valueMsgItems msg k (offset + 5)
    pure (item :: rest)

/-- `ValueMsg` from messages.py. -/
structure ValueMsg where
  num_entities : ℕ
  value_items : List ValueItem
  deriving DecidableEq, Repr

/-- `ValueMsg.__init__`: `num_entities = msg[1]`, then the item loop. -/
def ValueMsg.ofBytes (msg : List ℕ) : Except PyErr ValueMsg := do
  let n ← pyIndex msg 1
  let items ← valueMsgItems msg n 2
  pure ⟨n, items⟩

/-!  Discovery-catalog reconciliation (`lora_parse_discovery_msg`). -/

/-- The condition under which one loop iteration of
`lora_parse_discovery_msg` replaces catalog entry `e` in place with the
incoming descriptor `d`: matching entity id and not `__eq__`-equal. -/
def touches (d e : DiscoveryMsg) : Prop :=
  e.entity_id = d.entity_id ∧ discEq e d = false

instance (d e : DiscoveryMsg) : Decidable (touches d e) := by
  unfold touches
  infer_instance

/-- The catalog update of `lora_parse_discovery_msg`.  The source iterates
over the catalog with index `i`, setting `found` on every entity-id match,
replacing `discovery_msgs[i]` (and setting `modified`) when the match is
not `__eq__`-equal, and appending the descriptor (setting `modified`) when
no index matched; since each iteration reads and writes only index `i` and
the two flags only ever go from False to True, the loop is the per-element
map below with the flags as disjunctions over the original list.  The
second component is the `modified` flag — exactly the condition under which
the source rewrites discovery.json. -/
def reconcile (catalog : List DiscoveryMsg) (d : DiscoveryMsg) : List DiscoveryMsg × Bool :=
  let updated := catalog.map fun e => if touches d e then d else e
  let found := catalog.any fun e => e.entity_id == d.entity_id
  let modified := catalog.any fun e => e.entity_id == d.entity_id && ! discEq e d
  if found then (updated, modified) else (updated ++ [d], true)

/-!  Value semantics (`lora_parse_value_msg`). -/

/-- A value representation accumulated into the published mapping: a string
token (cover / binary_sensor) or a number (sensor path; Python int or float,
embedded as an exact rational). -/
inductive Rep where
  | str : String → Rep
  | num : ℚ → Rep
  deriving DecidableEq, Repr

/-- Python `str.lower()` for the ASCII names this gateway handles: each
character mapped to its lower-case form. -/
def pyLower (s : String) : String :=
  ⟨s.data.map Char.toLower⟩

/-- Python `==` between a `str` and an `int` — always `False`, never an
error.  The source compares `Cover.state[value_item.value]` (a string)
with `0`. -/
def pyEqStrInt (_s : String) (_n : ℤ) : Bool :=
  false

/-- The numeric pipeline of the sensor branch of `lora_parse_value_msg`:
if the descriptor is signed and `value & 0x80000000` is non-zero the value
becomes `-0x100000000 + value`; then, if precision is positive, it is
divided by `10 ** precision` (Python true division, embedded exactly
over ℚ). -/
def sensorValue (signed : Bool) (precision : ℕ) (raw : ℕ) : ℚ :=
  let v : ℚ := if signed = true ∧ (raw / 2 ^ 31) % 2 = 1 then (raw : ℚ) - 2 ^ 32 else (raw : ℚ)
  if precision > 0 then v / 10 ^ precision else v

/-- One device of the registry loaded from devices.json: its name and the
entity_id → entity-name mapping (the source keys this dict by `str(id)`;
`str` is injective on ℕ so the key is embedded as the ℕ itself). -/
structure Device where
  name : String
  entities : List (ℕ × String)
  deriving DecidableEq, Repr

/-- Python dict subscript `d[k]`: the value, or `KeyError`. -/
def dictGet {α β : Type} [BEq α] (d : List (α × β)) (k : α) : Except PyErr β :=
  match d.lookup k with
  | some v => .ok v
  | none => .error .keyError

/-- Python dict assignment `d[k] = v`: replace in place when the key is
present, append otherwise (insertion order preserved). -/
def dictInsert {β : Type} (xs : List (String × β)) (k : String) (v : β) : List (String × β) :=
  match xs with
  | [] => [(k, v)]
  | (k', v') :: t => if k' = k then (k, v) :: t else (k', v') :: dictInsert t k v

/-- The representation computed for one matched (descriptor, value item)
pair in `lora_parse_value_msg`: the lowercased entity name from the device
registry paired with the component-specific representation.  The
binary_sensor branch is the source's
`"OFF" if Cover.state[value_item.value] == 0 else "ON"`. -/
def reprFor (disc : DiscoveryMsg) (device : Device) (v : ValueItem) : Except PyErr (String × Rep) := do
  let entity_name ← dictGet device.entities v.entity_id
  let entity_name := pyLower entity_name
  if disc.component = "cover" then do
    let s ← pyIndex Cover.state v.value
    pure (entity_name, .str s)
  else if disc.component = "binary_sensor" then do
    let s ← pyIndex Cover.state v.value
    pure (entity_name, .str (if pyEqStrInt s 0 then "OFF" else "ON"))
  else
    pure (entity_name, .num (sensorValue disc.signed disc.precision v.value))

/-- The inner loop of `lora_parse_value_msg` for one value item: every
catalog descriptor with a matching entity id (there is no break in the
source) contributes an assignment into the `values` dict; a missing entity
only logs a warning, leaving `values` unchanged. -/
def processItem (device : Device) (values : List (String × Rep)) (v : ValueItem) :
    List DiscoveryMsg → Except PyErr (List (String × Rep))
  | [] => .ok values
  | d :: rest =>
    if d.entity_id = v.entity_id then do
      let kr ← reprFor d device v
      processItem device (dictInsert values kr.1 kr.2) v rest
    else
      processItem device values v rest

/-- The outer loop of `lora_parse_value_msg` over the decoded value items. -/
def processItems (catalog : List DiscoveryMsg) (device : Device) :
    List (String × Rep) → List ValueItem → Except PyErr (List (String × Rep))
  | values, [] => .ok values
  | values, v :: vs => do
    let values' ← processItem device values v catalog
    processItems catalog device values' vs

/-- The `found` flag computed by the inner loop for one value item: whether
any catalog descriptor carries the item's entity id. -/
def itemFound (catalog : List DiscoveryMsg) (v : ValueItem) : Bool :=
  catalog.any (fun d => d.entity_id == v.entity_id)

/-- JSON string serialization for the tokens and names this gateway emits
(no characters needing escapes occur in them), matching `json.dumps`. -/
def jsonStr (s : String) : String :=
  "\"" ++ s ++ "\""

/-- `json.dumps` of one accumulated representation. -/
def Rep.dump : Rep → String
  | .str s => jsonStr s
  | .num q => if q.den = 1 then toString q.num else toString q

/-- `json.dumps(values, separators=(",", ":"))` over the accumulated
mapping. -/
def jsonDumps (values : List (String × Rep)) : String :=
  "\x7b" ++ String.intercalate "," (values.map fun kv => jsonStr kv.1 ++ ":" ++ kv.2.dump) ++ "\x7d"

/-- `lora_parse_value_msg` for a frame from a known device: decode the
frame, run the value-semantics loops, and if the accumulated dict is
non-empty publish the serialized mapping to
`<base_topic>/<device name lowercased>/state`.  An exception anywhere
propagates: the source has no try/except on this path. -/
def lora_parse_value_msg (device : Device) (catalog : List DiscoveryMsg)
    (base_topic : String) (msg : List ℕ) : Except PyErr (Option (String × String)) := do
  let decoded ← ValueMsg.ofBytes msg
  let values ← processItems catalog device [] decoded.value_items
  if values = [] then
    pure none
  else
    pure (some (base_topic ++ "/" ++ pyLower device.name ++ "/state", jsonDumps values))

/-!  Outbound request builders. -/

/-- What an outbound builder did: returned early with a validation error,
or invoked `lora.send_to_wait` with a payload, destination address and
message-kind tag. -/
inductive SendOutcome where
  | rejected
  | sent (payload : List ℕ) (address : ℤ) (msgType : ℕ)
  deriving DecidableEq, Repr

/-- `struct.pack("!B", n)`: the byte, or `struct.error` when `n` is outside
[0, 255]. -/
def packU8 (n : ℤ) : Except PyErr ℕ :=
  if 0 ≤ n ∧ n ≤ 255 then .ok n.toNat else .error .structError

/-- `lora_send_ping_req`: the source's guard is the chained comparison
`0 > address > 255`, i.e. `0 > address and address > 255`; when it does not
hold, `send_to_wait(b"", address, MsgType.PING_REQ)` is invoked. -/
def lora_send_ping_req (address : ℤ) : Except PyErr SendOutcome :=
  if 0 > address ∧ address > 255 then
    .ok .rejected
  else
    .ok (.sent [] address 0)

/-- `lora_send_discovery_req`: guards `0 > address > 255` and
`0 > entity_id > 255`, then `send_to_wait(struct.pack("!B", entity_id),
address, MsgType.DISCOVERY_REQ)`. -/
def lora_send_discovery_req (address entity_id : ℤ) : Except PyErr SendOutcome :=
  if 0 > address ∧ address > 255 then
    .ok .rejected
  else if 0 > entity_id ∧ entity_id > 255 then
    .ok .rejected
  else do
    let b ← packU8 entity_id
    pure (.sent [b] address 2)

/-- `lora_send_config_req`: same shape as the discovery request with
message kind `CONFIG_REQ`. -/
def lora_send_config_req (address entity_id : ℤ) : Except PyErr SendOutcome :=
  if 0 > address ∧ address > 255 then
    .ok .rejected
  else if 0 > entity_id ∧ entity_id > 255 then
    .ok .rejected
  else do
    let b ← packU8 entity_id
    pure (.sent [b] address 6)

/-- `lora_send_service_req`: guards `0 > address > 255`,
`0 > entity_id > 255`, `0 > service > 255`, then
`send_to_wait(struct.pack("!BB", entity_id, service), address,
MsgType.SERVICE_REQ)`. -/
def lora_send_service_req (address entity_id service : ℤ) : Except PyErr SendOutcome :=
  if 0 > address ∧ address > 255 then
    .ok .rejected
  else if 0 > entity_id ∧ entity_id > 255 then
    .ok .rejected
  else if 0 > service ∧ service > 255 then
    .ok .rejected
  else do
    let b1 ← packU8 entity_id
    let b2 ← packU8 service
    pure (.sent [b1, b2] address 9)

/-!  Concrete fixtures and spec-side vocabularies used by the theorems. -/

deriving instance DecidableEq for Except

/-- The device-registry entry `{"name": "Garage", "entities": {"5": "Door"}}`. -/
def garageDevice : Device :=
  ⟨"Garage", [(5, "Door")]⟩

/-- A catalog descriptor for entity 5: component cover, unsigned,
precision 0. -/
def doorDesc : DiscoveryMsg :=
  ⟨5, "cover", some "none", "", false, 1, 0, []⟩

/-- A device-registry entry naming entity 7 "Alarm". -/
def alarmDevice : Device :=
  ⟨"Garage", [(7, "Alarm")]⟩

/-- A catalog descriptor for entity 7: component binary_sensor. -/
def alarmDesc : DiscoveryMsg :=
  ⟨7, "binary_sensor", some "none", "", false, 1, 0, []⟩

/-- The device-class vocabulary the wire format selects for component index
0, 1 or 2 (spec-side restatement used to compare against the decoder). -/
def vocabFor (ci : ℕ) : List String :=
  if ci = 0 then BinarySensor.deviceClassName
  else if ci = 1 then Sensor.deviceClassName
  else Cover.deviceClassName

/-!  Theorems. -/

theorem pyIndex_ok {α : Type} (xs : List α) (i : ℕ) (h : i < xs.length) :
    pyIndex xs i = .ok (xs.get ⟨i, h⟩) := by
  have hx : xs.get? i = some (xs.get ⟨i, h⟩) := List.get?_eq_get h
  rw [pyIndex, hx]

/-- C1: the claim says a value frame whose declared item count overruns the
buffer is rejected as a handled MalformedFrame without crashing the
dispatch loop.  The source instead lets `struct.unpack` raise an unguarded
`struct.error` which propagates out of `lora_parse_value_msg` — evaluated
here on the 2-byte frame `[5, 1]` (declared count 1, no item bytes) and on
`[5, 2, 7, 0, 0, 0, 1]` (declared count 2, only one item present). -/
theorem claim_C1_short_value_frame_unguarded_fault :
    ∀ (device : Device) (catalog : List DiscoveryMsg) (base_topic : String),
      lora_parse_value_msg device catalog base_topic [5, 1] = .error .structError ∧
      lora_parse_value_msg device catalog base_topic [5, 2, 7, 0, 0, 0, 1] =
        .error .structError := by
  intro _ _ _
  exact ⟨rfl, rfl⟩

/-- C2: the claim says the outbound builders reject out-of-range
address/entity/service values locally without invoking the transport.  The
source's guard `0 > x > 255` is an unsatisfiable chained comparison, so
nothing is ever rejected: address 256 and −1 reach `send_to_wait`, and an
out-of-range entity or service code makes `struct.pack` raise instead of a
local validation return. -/
theorem claim_C2_out_of_range_never_rejected :
    lora_send_ping_req 256 = .ok (.sent [] 256 0) ∧
    lora_send_ping_req (-1) = .ok (.sent [] (-1) 0) ∧
    lora_send_discovery_req 300 1 = .ok (.sent [1] 300 2) ∧
    lora_send_config_req (-7) 1 = .ok (.sent [1] (-7) 6) ∧
    lora_send_service_req 1 2 256 = .error .structError := by
  refine ⟨rfl, rfl, ?_, ?_, ?_⟩ <;> decide

/-- C3: the claim says a binary_sensor value is the off token when the raw
value is zero and the on token otherwise.  The source computes
`"OFF" if Cover.state[value] == 0 else "ON"`: the string is never equal to
the integer 0, so raw value 0 yields "ON", and raw values ≥ 4 raise
IndexError on the cover vocabulary. -/
theorem claim_C3_binary_sensor_zero_yields_on :
    reprFor alarmDesc alarmDevice ⟨7, 0⟩ = .ok ("alarm", .str "ON") ∧
    reprFor alarmDesc alarmDevice ⟨7, 1⟩ = .ok ("alarm", .str "ON") ∧
    reprFor alarmDesc alarmDevice ⟨7, 4⟩ = .error .indexError := by
  decide

/-- C6: for a sensor-component entity the signed flag and the 0x80000000
bit trigger two's-complement reinterpretation (magnitude − 2^32) before
scaling, and precision p divides by 10^p; in particular magnitude
0x80000001 signed with precision 0 gives −2147483647, with precision 2
gives −21474836.47, and unsigned 1234 with precision 1 gives 123.4. -/
theorem claim_C6_sensor_value_semantics :
    (∀ (sgn : Bool) (p raw : ℕ), raw < 2 ^ 32 →
       sensorValue sgn p raw =
         (if sgn = true ∧ 2 ^ 31 ≤ raw then (raw : ℚ) - 2 ^ 32 else (raw : ℚ)) / 10 ^ p) ∧
    sensorValue true 0 0x80000001 = -2147483647 ∧
    sensorValue true 2 0x80000001 = -21474836.47 ∧
    sensorValue false 1 1234 = 123.4 := by
  refine ⟨?_, by norm_num [sensorValue], by norm_num [sensorValue], by norm_num [sensorValue]⟩
  intro sgn p raw hraw
  have hcond : ((raw / 2 ^ 31) % 2 = 1) ↔ 2 ^ 31 ≤ raw := by omega
  unfold sensorValue
  simp only [hcond]
  rcases Nat.eq_zero_or_pos p with hp | hp
  · simp [hp]
  · simp [Nat.pos_iff_ne_zero.mp hp, hp]

/-- Witness for C6: the general scaling law applied at the concrete signed
magnitude 0x80000001 with precision 2, the bound hypothesis discharged
numerically. -/
theorem claim_C6_sensor_value_semantics_witness :
    sensorValue true 2 2147483649 =
      (if (true = true) ∧ 2 ^ 31 ≤ (2147483649 : ℕ) then ((2147483649 : ℕ) : ℚ) - 2 ^ 32
       else ((2147483649 : ℕ) : ℚ)) / 10 ^ 2 :=
  claim_C6_sensor_value_semantics.1 true 2 2147483649 (by norm_num)

/-- C8: with the registry mapping address 1 to "Garage" and entity 5 to
"Door", and the catalog holding entity 5 as an unsigned precision-0 cover,
a value frame with the single item (entity_id = 5, magnitude = 1) publishes
exactly \x7b"door":"open"\x7d to `<base>/garage/state` (cover vocabulary
0 closed, 1 open, 2 opening, 3 closing). -/
theorem claim_C8_end_to_end_cover_open (base_topic : String) :
    lora_parse_value_msg garageDevice [doorDesc] base_topic [5, 1, 5, 0, 0, 0, 1] =
      .ok (some (base_topic ++ "/garage/state", "\x7b\"door\":\"open\"\x7d")) := by
  have h : lora_parse_value_msg garageDevice [doorDesc] base_topic [5, 1, 5, 0, 0, 0, 1] =
      .ok (some (base_topic ++ "/" ++ "garage" ++ "/state", "\x7b\"door\":\"open\"\x7d")) := rfl
  rw [h]
  simp [String.append_assoc]

theorem processItem_not_found (device : Device) (values : List (String × Rep)) (v : ValueItem) :
    ∀ catalog, itemFound catalog v = false → processItem device values v catalog = .ok values := by
  intro catalog
  induction catalog with
  | nil => intro _; rfl
  | cons d rest ih =>
    intro h
    simp only [itemFound, List.any_cons, Bool.or_eq_false_iff] at h
    have h1 : ¬ d.entity_id = v.entity_id := by
      simpa using h.1
    have h2 : itemFound rest v = false := h.2
    simp only [processItem, if_neg h1]
    exact ih h2

/-- C7: a value item whose entity id is absent from the catalog is skipped
(only a warning is logged) and contributes nothing, while processing of the
remaining items of the frame is unaffected: dropping the unknown item from
the frame leaves the accumulated mapping — and any error the sibling items
produce — unchanged. -/
theorem claim_C7_unknown_entity_isolated (catalog : List DiscoveryMsg) (device : Device)
    (xs ys : List ValueItem) (v : ValueItem) (h : itemFound catalog v = false) :
    ∀ values, processItems catalog device values (xs ++ v :: ys) =
      processItems catalog device values (xs ++ ys) := by
  induction xs with
  | nil =>
    intro values
    show processItems catalog device values (v :: ys) = _
    simp only [processItems, processItem_not_found device values v catalog h, List.nil_append]
    rfl
  | cons x xs ih =>
    intro values
    simp only [List.cons_append, processItems]
    cases hx : processItem device values x catalog with
    | error e => rfl
    | ok values' =>
      show Except.bind (Except.ok values') _ = Except.bind (Except.ok values') _
      show processItems catalog device values' (xs ++ v :: ys) =
        processItems catalog device values' (xs ++ ys)
      exact ih values'

/-- Witness for C7: in a frame holding the known cover item (entity 5) and
an item for entity 9 absent from the catalog, dropping the unknown item
does not change the processing result. -/
theorem claim_C7_unknown_entity_isolated_witness :
    processItems [doorDesc] garageDevice [] ([⟨5, 1⟩] ++ ⟨9, 1⟩ :: []) =
      processItems [doorDesc] garageDevice [] ([⟨5, 1⟩] ++ []) :=
  claim_C7_unknown_entity_isolated [doorDesc] garageDevice [⟨5, 1⟩] [] ⟨9, 1⟩ (by decide) []

theorem bind_isOk_false {ε α β : Type} (A : Except ε α) (f : α → Except ε β)
    (h : ∀ a, (f a).isOk = false) : (Except.bind A f).isOk = false := by
  cases A with
  | error e => rfl
  | ok a => exact h a

theorem bind_ok_inv {ε α β : Type} {A : Except ε α} {f : α → Except ε β} {b : β}
    (h : Except.bind A f = .ok b) : ∃ a, A = .ok a ∧ f a = .ok b := by
  cases A with
  | error e => exact absurd h (by simp [Except.bind])
  | ok a => exact ⟨a, rfl, h⟩

theorem parseConfigItems_length (msg : List ℕ) :
    ∀ k offset l, parseConfigItems msg k offset = .ok l → l.length = k := by
  intro k
  induction k with
  | zero =>
    intro offset l h
    simp only [parseConfigItems] at h
    cases h
    rfl
  | succ k ih =>
    intro offset l h
    simp only [parseConfigItems] at h
    obtain ⟨item, -, h⟩ := bind_ok_inv h
    obtain ⟨rest, hrest, h⟩ := bind_ok_inv h
    cases h
    simp [ih (offset + 3) rest hrest]

/-- C10: a discovery frame whose declared config-item count (byte 6) is
zero never decodes: the source only creates the `config_items` local when
the count is positive and then uses it unconditionally, so the count-zero
path raises `UnboundLocalError`; consequently no decoded descriptor ever
carries an empty config-item list. -/
theorem claim_C10_zero_config_count_always_fails (msg : List ℕ) :
    (msg.get? 6 = some 0 → (DiscoveryMsg.from_bytes msg).isOk = false) ∧
    (∀ d, DiscoveryMsg.from_bytes msg = .ok d → d.config_items ≠ []) := by
  constructor
  · intro h6
    unfold DiscoveryMsg.from_bytes
    apply bind_isOk_false
    intro e
    apply bind_isOk_false
    intro ci
    apply bind_isOk_false
    intro comp
    apply bind_isOk_false
    intro dc
    apply bind_isOk_false
    intro ui
    apply bind_isOk_false
    intro unit
    apply bind_isOk_false
    intro b5
    apply bind_isOk_false
    intro size
    have h : pyIndex msg 6 = .ok 0 := by rw [pyIndex, h6]
    rw [h]
    rfl
  · intro d h
    unfold DiscoveryMsg.from_bytes at h
    obtain ⟨e, -, h⟩ := bind_ok_inv h
    obtain ⟨ci, -, h⟩ := bind_ok_inv h
    obtain ⟨comp, -, h⟩ := bind_ok_inv h
    obtain ⟨dc, -, h⟩ := bind_ok_inv h
    obtain ⟨ui, -, h⟩ := bind_ok_inv h
    obtain ⟨unit, -, h⟩ := bind_ok_inv h
    obtain ⟨b5, -, h⟩ := bind_ok_inv h
    obtain ⟨size, -, h⟩ := bind_ok_inv h
    obtain ⟨n, -, h⟩ := bind_ok_inv h
    by_cases hn : n > 0
    · rw [if_pos hn] at h
      obtain ⟨items, hitems, h⟩ := bind_ok_inv h
      cases h
      have hl := parseConfigItems_length msg n 7 items hitems
      intro hc
      have hi : items = [] := by simpa using hc
      subst hi
      simp at hl
      omega
    · rw [if_neg hn] at h
      exact absurd h (by simp)

/-- Witness for C10: the 7-byte discovery frame `[0, 1, 0, 0, 0, 0, 0]`
declares zero config items and its decode is not successful. -/
theorem claim_C10_zero_config_count_always_fails_witness :
    (DiscoveryMsg.from_bytes [0, 1, 0, 0, 0, 0, 0]).isOk = false :=
  (claim_C10_zero_config_count_always_fails [0, 1, 0, 0, 0, 0, 0]).1 rfl

theorem pyIndex_ok_inv {α : Type} {xs : List α} {i : ℕ} {a : α} (h : pyIndex xs i = .ok a) :
    ∃ hi : i < xs.length, xs.get ⟨i, hi⟩ = a := by
  unfold pyIndex at h
  cases hg : xs.get? i with
  | none => rw [hg] at h; exact absurd h (by simp)
  | some x =>
    rw [hg] at h
    cases h
    exact List.get?_eq_some.mp hg

theorem bind_ok {ε α β : Type} (a : α) (f : α → Except ε β) :
    Except.bind (Except.ok a) f = f a := rfl

theorem unit_indexOf_get (i : ℕ) (h : i < UnitTable.name.length) :
    UnitTable.name.indexOf (UnitTable.name.get ⟨i, h⟩) = i := by
  have h13 : i < 13 := by simpa [UnitTable.name] using h
  interval_cases i <;> rfl

theorem size_indexOf_get (i : ℕ) (h : i < Size.value.length) :
    Size.value.indexOf (Size.value.get ⟨i, h⟩) = i := by
  have h4 : i < 4 := by simpa [Size.value] using h
  interval_cases i <;> rfl

theorem bitfield_reencode_true (c p : ℕ) (hc : c < 4) (hp : p < 4) :
    bfSigned (16 + 4 * c + p) = true ∧ bfSizeCode (16 + 4 * c + p) = c ∧
    bfPrecision (16 + 4 * c + p) = p := by
  refine ⟨?_, ?_, ?_⟩
  · simp only [bfSigned, beq_iff_eq]; omega
  · simp only [bfSizeCode]; omega
  · simp only [bfPrecision]; omega

theorem bitfield_reencode_false (c p : ℕ) (hc : c < 4) (hp : p < 4) :
    bfSigned (0 + 4 * c + p) = false ∧ bfSizeCode (0 + 4 * c + p) = c ∧
    bfPrecision (0 + 4 * c + p) = p := by
  refine ⟨?_, ?_, ?_⟩
  · simp only [bfSigned, beq_eq_false_iff_ne, ne_eq]; omega
  · simp only [bfSizeCode]; omega
  · simp only [bfPrecision]; omega

theorem ConfigItem.from_bytes_cons (x y z : ℕ) :
    ConfigItem.from_bytes [x, y, z] =
      Except.bind (pyIndex UnitTable.name y) (fun u =>
        Except.bind (pyIndex Size.value (bfSizeCode z)) (fun sz =>
          .ok ⟨x, u, bfSigned z, sz, bfPrecision z⟩)) := rfl

/-- C5: decoding a config-item group and re-encoding it (the encoder
modelled from the spec's wire layout) reproduces the group up to the bits
the decoder reads, so decoding the re-encoded bytes yields back exactly the
same id, unit, signed flag, size and precision. -/
theorem claim_C5_config_item_round_trip (msg : List ℕ) (it : ConfigItem)
    (h : ConfigItem.from_bytes msg = .ok it) :
    ConfigItem.from_bytes it.to_bytes = .ok it := by
  unfold ConfigItem.from_bytes at h
  obtain ⟨b0, hb0, h⟩ := bind_ok_inv h
  obtain ⟨b1, hb1, h⟩ := bind_ok_inv h
  obtain ⟨u, hu, h⟩ := bind_ok_inv h
  obtain ⟨b2, hb2, h⟩ := bind_ok_inv h
  obtain ⟨sz, hsz, h⟩ := bind_ok_inv h
  cases h
  obtain ⟨hu1, hu2⟩ := pyIndex_ok_inv hu
  obtain ⟨hs1, hs2⟩ := pyIndex_ok_inv hsz
  have hc4 : bfSizeCode b2 < 4 := Nat.mod_lt _ (by omega)
  have hp4 : bfPrecision b2 < 4 := Nat.mod_lt _ (by omega)
  have hidx : UnitTable.name.indexOf u = b1 := by rw [← hu2]; exact unit_indexOf_get b1 hu1
  have hsidx : Size.value.indexOf sz = bfSizeCode b2 := by
    rw [← hs2]; exact size_indexOf_get (bfSizeCode b2) hs1
  cases hsb : bfSigned b2 with
  | false =>
    obtain ⟨hbs, hbc, hbp⟩ :=
      bitfield_reencode_false (bfSizeCode b2) (bfPrecision b2) hc4 hp4
    have hto : ConfigItem.to_bytes ⟨b0, u, false, sz, bfPrecision b2⟩ =
        [b0, b1, 0 + 4 * bfSizeCode b2 + bfPrecision b2] := by
      simp [ConfigItem.to_bytes, hidx, hsidx]
    rw [hto, ConfigItem.from_bytes_cons, pyIndex_ok UnitTable.name b1 hu1, hu2, bind_ok,
      hbc, pyIndex_ok Size.value (bfSizeCode b2) hs1, hs2, bind_ok, hbs, hbp]
  | true =>
    obtain ⟨hbs, hbc, hbp⟩ :=
      bitfield_reencode_true (bfSizeCode b2) (bfPrecision b2) hc4 hp4
    have hto : ConfigItem.to_bytes ⟨b0, u, true, sz, bfPrecision b2⟩ =
        [b0, b1, 16 + 4 * bfSizeCode b2 + bfPrecision b2] := by
      simp [ConfigItem.to_bytes, hidx, hsidx]
    rw [hto, ConfigItem.from_bytes_cons, pyIndex_ok UnitTable.name b1 hu1, hu2, bind_ok,
      hbc, pyIndex_ok Size.value (bfSizeCode b2) hs1, hs2, bind_ok, hbs, hbp]

/-- Witness for C5: the group `[9, 1, 22]` decodes to id 9, unit °C,
signed, size 2, precision 2, and decoding its re-encoding returns the same
item. -/
theorem claim_C5_config_item_round_trip_witness :
    ConfigItem.from_bytes (ConfigItem.to_bytes ⟨9, "°C", true, 2, 2⟩) =
      .ok ⟨9, "°C", true, 2, 2⟩ :=
  claim_C5_config_item_round_trip [9, 1, 22] ⟨9, "°C", true, 2, 2⟩ (by decide)

theorem except_ok_bind {ε α β : Type} (a : α) (f : α → Except ε β) :
    (Except.ok a : Except ε α) >>= f = f a := rfl

theorem bfSigned_eq_testBit (b : ℕ) : bfSigned b = b.testBit 4 := by
  rw [Nat.testBit_to_div_mod]
  show ((b / 16) % 2 == 1) = _
  have h16 : (2 : ℕ) ^ 4 = 16 := by norm_num
  rw [h16]
  by_cases h : b / 16 % 2 = 1
  · simp [h]
  · simp [h]

theorem getD_of_lt {α : Type} (xs : List α) (i : ℕ) (d : α) (h : i < xs.length) :
    xs.getD i d = xs.get ⟨i, h⟩ := by
  rw [List.getD_eq_getElem?_getD, List.getElem?_eq_getElem h]
  rfl

theorem discovery_decode_eval (e ci dc ui bf g0 g1 g2 : ℕ) (comp dcs : String)
    (hcomp : pyIndex Component.name ci = .ok comp)
    (hdcf : deviceClassFor comp [0, e, ci, dc, ui, bf, 1, g0, g1, g2] = .ok (some dcs))
    (hui : ui < UnitTable.name.length) (hg1 : g1 < UnitTable.name.length) :
    DiscoveryMsg.from_bytes [0, e, ci, dc, ui, bf, 1, g0, g1, g2] =
      .ok ⟨e, comp, some dcs, UnitTable.name.getD ui "", bf.testBit 4,
           Size.value.getD ((bf / 4) % 4) 0, bf % 4,
           [⟨g0, UnitTable.name.getD g1 "", g2.testBit 4,
             Size.value.getD ((g2 / 4) % 4) 0, g2 % 4⟩]⟩ := by
  have hszbf : bf / 4 % 4 < Size.value.length := by
    simp [Size.value]; omega
  have hszg2 : g2 / 4 % 4 < Size.value.length := by
    simp [Size.value]; omega
  have h1 : pyIndex [0, e, ci, dc, ui, bf, 1, g0, g1, g2] 1 = .ok e := rfl
  have h2 : pyIndex [0, e, ci, dc, ui, bf, 1, g0, g1, g2] 2 = .ok ci := rfl
  have h4 : pyIndex [0, e, ci, dc, ui, bf, 1, g0, g1, g2] 4 = .ok ui := rfl
  have h5 : pyIndex [0, e, ci, dc, ui, bf, 1, g0, g1, g2] 5 = .ok bf := rfl
  have h6 : pyIndex [0, e, ci, dc, ui, bf, 1, g0, g1, g2] 6 = .ok 1 := rfl
  have hg0a : pyIndex [g0, g1, g2] 0 = .ok g0 := rfl
  have hg1a : pyIndex [g0, g1, g2] 1 = .ok g1 := rfl
  have hg2a : pyIndex [g0, g1, g2] 2 = .ok g2 := rfl
  have hslice : (([0, e, ci, dc, ui, bf, 1, g0, g1, g2] : List ℕ).drop 7).take 3 =
      [g0, g1, g2] := rfl
  have huis := pyIndex_ok UnitTable.name ui hui
  have hg1s := pyIndex_ok UnitTable.name g1 hg1
  have hbfs : pyIndex Size.value (bf / 4 % 4) = .ok (Size.value.get ⟨bf / 4 % 4, hszbf⟩) :=
    pyIndex_ok Size.value (bf / 4 % 4) hszbf
  have hg2s : pyIndex Size.value (g2 / 4 % 4) = .ok (Size.value.get ⟨g2 / 4 % 4, hszg2⟩) :=
    pyIndex_ok Size.value (g2 / 4 % 4) hszg2
  rw [getD_of_lt UnitTable.name ui "" hui, getD_of_lt UnitTable.name g1 "" hg1,
    getD_of_lt Size.value (bf / 4 % 4) 0 hszbf,
    getD_of_lt Size.value (g2 / 4 % 4) 0 hszg2]
  simp only [DiscoveryMsg.from_bytes, parseConfigItems,
    ConfigItem.from_bytes, h1, h2, h4, h5, h6, hg0a, hg1a, hg2a, hcomp, hdcf, hslice,
    huis, hg1s, hbfs, hg2s, except_ok_bind, bfSigned_eq_testBit, bfSizeCode,
    bfPrecision, pure, Except.pure, reduceIte]
  rfl

/-- C9: byte 5 of a discovery frame and byte 3 of each config-item group
decode as signed = bit 4, size = table (1, 2, 4, 0) indexed by bits 3-2,
precision = bits 1-0; byte 2 selects the component
binary_sensor/sensor/cover for index 0/1/2, and byte 3 of the frame is
resolved against the device-class vocabulary chosen by that component. -/
theorem claim_C9_wire_field_decoding (e ci dc ui bf g0 g1 g2 : ℕ) (hci : ci < 3)
    (hdc : dc < (vocabFor ci).length) (hui : ui < UnitTable.name.length)
    (hg1 : g1 < UnitTable.name.length) :
    DiscoveryMsg.from_bytes [0, e, ci, dc, ui, bf, 1, g0, g1, g2] =
      .ok ⟨e, Component.name.getD ci "", some ((vocabFor ci).getD dc ""),
           UnitTable.name.getD ui "", bf.testBit 4, Size.value.getD ((bf / 4) % 4) 0,
           bf % 4,
           [⟨g0, UnitTable.name.getD g1 "", g2.testBit 4,
             Size.value.getD ((g2 / 4) % 4) 0, g2 % 4⟩]⟩ := by
  interval_cases ci
  · rw [show vocabFor 0 = BinarySensor.deviceClassName from rfl] at hdc ⊢
    rw [show Component.name.getD 0 "" = "binary_sensor" from rfl]
    have h3 : pyIndex [0, e, 0, dc, ui, bf, 1, g0, g1, g2] 3 = .ok dc := rfl
    have hdcs := pyIndex_ok BinarySensor.deviceClassName dc hdc
    refine discovery_decode_eval e 0 dc ui bf g0 g1 g2 "binary_sensor" _ rfl ?_ hui hg1
    rw [getD_of_lt BinarySensor.deviceClassName dc "" hdc]
    simp only [deviceClassFor, h3, hdcs, except_ok_bind, pure, Except.pure, reduceIte]
  · rw [show vocabFor 1 = Sensor.deviceClassName from rfl] at hdc ⊢
    rw [show Component.name.getD 1 "" = "sensor" from rfl]
    have h3 : pyIndex [0, e, 1, dc, ui, bf, 1, g0, g1, g2] 3 = .ok dc := rfl
    have hdcs := pyIndex_ok Sensor.deviceClassName dc hdc
    refine discovery_decode_eval e 1 dc ui bf g0 g1 g2 "sensor" _ rfl ?_ hui hg1
    rw [getD_of_lt Sensor.deviceClassName dc "" hdc]
    simp only [deviceClassFor, h3, hdcs, except_ok_bind, pure, Except.pure, reduceIte]
    rw [if_neg (by decide : ¬ ("sensor" : String) = "binary_sensor")]
  · rw [show vocabFor 2 = Cover.deviceClassName from rfl] at hdc ⊢
    rw [show Component.name.getD 2 "" = "cover" from rfl]
    have h3 : pyIndex [0, e, 2, dc, ui, bf, 1, g0, g1, g2] 3 = .ok dc := rfl
    have hdcs := pyIndex_ok Cover.deviceClassName dc hdc
    refine discovery_decode_eval e 2 dc ui bf g0 g1 g2 "cover" _ rfl ?_ hui hg1
    rw [getD_of_lt Cover.deviceClassName dc "" hdc]
    simp only [deviceClassFor, h3, hdcs, except_ok_bind, pure, Except.pure, reduceIte]
    rw [if_neg (by decide : ¬ ("cover" : String) = "binary_sensor"),
      if_neg (by decide : ¬ ("cover" : String) = "sensor")]


/-- Witness for C9: the frame `[0, 1, 2, 5, 1, 22, 1, 9, 1, 22]` (component
index 2 = cover, device-class index 5, unit index 1, bitfield 22, one
config group `[9, 1, 22]`) decodes to the spec-side field formulas; all
range hypotheses discharged by evaluation. -/
theorem claim_C9_wire_field_decoding_witness :
    DiscoveryMsg.from_bytes [0, 1, 2, 5, 1, 22, 1, 9, 1, 22] =
      .ok ⟨1, Component.name.getD 2 "", some ((vocabFor 2).getD 5 ""),
           UnitTable.name.getD 1 "", Nat.testBit 22 4, Size.value.getD ((22 / 4) % 4) 0,
           22 % 4,
           [⟨9, UnitTable.name.getD 1 "", Nat.testBit 22 4,
             Size.value.getD ((22 / 4) % 4) 0, 22 % 4⟩]⟩ :=
  claim_C9_wire_field_decoding 1 2 5 1 22 9 1 22 (by decide) (by decide) (by decide) (by decide)

theorem discEq_refl (d : DiscoveryMsg) : discEq d d = true := by
  simp [discEq]

theorem map_eq_self_of {α : Type} (c : List α) (f : α → α) (h : ∀ x ∈ c, f x = x) :
    c.map f = c := by
  induction c with
  | nil => rfl
  | cons x t ih =>
    simp only [List.map_cons, h x (by simp), ih (fun y hy => h y (by simp [hy]))]

theorem eq_self_of_map_eq {α : Type} (c : List α) (f : α → α) (h : c.map f = c) :
    ∀ x ∈ c, f x = x := by
  induction c with
  | nil => intro x hx; cases hx
  | cons x t ih =>
    simp only [List.map_cons, List.cons.injEq] at h
    intro y hy
    rcases List.mem_cons.mp hy with hy | hy
    · rw [hy]; exact h.1
    · exact ih h.2 y hy

/-- C4: reconciliation is idempotent — feeding the same discovery
descriptor a second time leaves the catalog unchanged and sets no
`modified` flag, so no second snapshot write happens — and the snapshot is
written exactly when reconciliation changed the catalog (appended a new
entity or replaced a divergent descriptor), never on unchanged input. -/
theorem claim_C4_reconcile_idempotent_write_iff_changed (c : List DiscoveryMsg) (d : DiscoveryMsg) :
    reconcile (reconcile c d).1 d = ((reconcile c d).1, false) ∧
    ((reconcile c d).2 = true ↔ (reconcile c d).1 ≠ c) := by
  by_cases hf : (c.any fun e => e.entity_id == d.entity_id) = true
  · -- the incoming entity id is already present in the catalog
    have hres : reconcile c d =
        (c.map fun e => if touches d e then d else e,
         c.any fun e => e.entity_id == d.entity_id && ! discEq e d) := by
      simp only [reconcile, hf, if_true]
    set upd := c.map fun e => if touches d e then d else e with hupd
    -- every element of upd with the incoming id is discEq-equal to d
    have hstable : ∀ y ∈ upd, y.entity_id = d.entity_id → discEq y d = true := by
      intro y hy hyid
      rcases List.mem_map.mp hy with ⟨x, hx, hfx⟩
      by_cases ht : touches d x
      · rw [if_pos ht] at hfx; rw [← hfx]; exact discEq_refl d
      · rw [if_neg ht] at hfx
        rw [← hfx] at hyid ⊢
        rcases Decidable.not_and_iff_or_not.mp ht with h1 | h1
        · exact absurd hyid h1
        · cases hde : discEq x d
          · exact absurd hde h1
          · rfl
    have hfound2 : (upd.any fun e => e.entity_id == d.entity_id) = true := by
      rw [hupd, List.any_map]
      rcases List.any_eq_true.mp hf with ⟨x, hx, hxid⟩
      apply List.any_eq_true.mpr
      refine ⟨x, hx, ?_⟩
      by_cases ht : touches d x
      · simp [Function.comp, ht]
      · simpa [Function.comp, ht] using hxid
    have hmap2 : (upd.map fun e => if touches d e then d else e) = upd := by
      apply map_eq_self_of
      intro y hy
      by_cases ht : touches d y
      · exact absurd (hstable y hy ht.1) (by simp [ht.2])
      · rw [if_neg ht]
    have hmod2 : (upd.any fun e => e.entity_id == d.entity_id && ! discEq e d) = false := by
      apply List.any_eq_false.mpr
      intro y hy
      simp only [Bool.and_eq_true, Bool.not_eq_true', beq_iff_eq]
      rintro ⟨hyid, hyde⟩
      rw [hstable y hy hyid] at hyde
      cases hyde
    constructor
    · rw [hres]
      simp only [reconcile, hfound2, if_true, hmap2, hmod2]
    · rw [hres]
      simp only [hupd]
      constructor
      · intro hmod
        rcases List.any_eq_true.mp hmod with ⟨x, hx, hxprop⟩
        simp only [Bool.and_eq_true, Bool.not_eq_true', beq_iff_eq] at hxprop
        intro heq
        have hfx := eq_self_of_map_eq c _ heq x hx
        rw [if_pos ⟨hxprop.1, hxprop.2⟩] at hfx
        have : discEq x d = true := by rw [← hfx]; exact discEq_refl d
        rw [this] at hxprop
        cases hxprop.2
      · intro hne
        cases hmod : (c.any fun e => e.entity_id == d.entity_id && ! discEq e d) with
        | true => rfl
        | false =>
          exfalso
          apply hne
          apply map_eq_self_of
          intro x hx
          have hno := List.any_eq_false.mp hmod x hx
          simp only [Bool.and_eq_true, Bool.not_eq_true', beq_iff_eq, not_and] at hno
          have hnt : ¬ touches d x := by
            intro ht
            obtain ⟨h1, h2⟩ := (show x.entity_id = d.entity_id ∧ discEq x d = false from ht)
            exact absurd h2 (by simp [hno h1])
          rw [if_neg hnt]
  · -- the incoming entity id is new: the descriptor is appended
    have hf' : (c.any fun e => e.entity_id == d.entity_id) = false := by
      simpa using hf
    have hfc := List.any_eq_false.mp hf'
    have hcupd : (c.map fun e => if touches d e then d else e) = c := by
      apply map_eq_self_of
      intro x hx
      have hxb := hfc x hx
      have hnt : ¬ touches d x := by
        intro ht
        obtain ⟨h1, -⟩ := (show x.entity_id = d.entity_id ∧ discEq x d = false from ht)
        simp [h1] at hxb
      rw [if_neg hnt]
    have hres : reconcile c d = (c ++ [d], true) := by
      simp only [reconcile, hf', Bool.false_eq_true, if_false, hcupd]
    have hdd : ¬ touches d d := by
      intro ht
      obtain ⟨-, h2⟩ := (show d.entity_id = d.entity_id ∧ discEq d d = false from ht)
      rw [discEq_refl d] at h2
      cases h2
    have hfound2 : ((c ++ [d]).any fun e => e.entity_id == d.entity_id) = true := by
      apply List.any_eq_true.mpr
      exact ⟨d, by simp, by simp⟩
    have hmap2 : ((c ++ [d]).map fun e => if touches d e then d else e) = c ++ [d] := by
      rw [List.map_append, hcupd]
      simp only [List.map_cons, List.map_nil, if_neg hdd]
    have hmod2 : ((c ++ [d]).any fun e => e.entity_id == d.entity_id && ! discEq e d) = false := by
      apply List.any_eq_false.mpr
      intro y hy
      rcases List.mem_append.mp hy with hy | hy
      · have := hfc y hy
        simp [this]
      · have hyd : y = d := by simpa using hy
        simp [hyd, discEq_refl]
    constructor
    · rw [hres]
      simp only [reconcile, hfound2, if_true, hmap2, hmod2]
    · rw [hres]
      constructor
      · intro _ habs
        have := congrArg List.length habs
        simp at this
      · intro _
        rfl

end Lora2MQTT
